import Mathlib

/-!
Verification development for the treasury trading engine
(`src/lib/trading-engine.ts` and the quote/pricing computation of the
treasury page).

Embedding conventions:

* JavaScript `number` arithmetic is embedded as exact rational arithmetic
  (`ℚ`) in the control-flow part of the engine, and as real arithmetic
  (`ℝ`) in the analytic pricing/quoting part (`Math.exp`, `Math.sqrt`,
  `Math.log` become `Real.exp`, `Real.sqrt`, `Real.log`).
* Every external call (price fetch, market fetch, balance fetch,
  open-order fetch, order placement) is a parameter of the embedded
  function: `Option`/`Except` value `none`/`error` stands for a rejected
  promise (transport failure), `some` for a resolved value.
* `JSON.parse` of the `outcomePrices` string is abstracted as an
  `Option (List (Option ℚ))`: `none` is a parse failure (the `catch`
  branch of `parseOutcomePrices`), an entry `none` is a JSON value `v`
  with `Number(v)` not a (nonzero) number, so that `Number(v) || 0 = 0`.
* `Date.now()` timestamps are modelled as the constant `0`; no claim
  concerns wall-clock values.
* Log `details` strings are modelled as a structured `LogDetails` value
  carrying the same data that the engine interpolates into the string
  (sans decimal formatting).
* The engine computes one model quote (`d2`, `N(d2)`, `modelFair`) from
  fixed constants before comparing it with each market; in the
  control-flow model this quote is a parameter (`ModelQuote`), and the
  real-valued computation producing it is formalised separately below
  (`normalCDF`, `fairValue`).
-/

/-! ### Constants (`trading-engine.ts`, lines 13-27) -/

/-- `EDGE_THRESHOLD = 3.0` (percentage points). -/
def EDGE_THRESHOLD : ℚ := 3

/-- `KELLY_FRACTION = 0.25` (quarter-Kelly multiplier). -/
def KELLY_FRACTION : ℚ := 1/4

/-- `MAX_POSITION_PCT = 0.05` (5% of trading balance per position). -/
def MAX_POSITION_PCT : ℚ := 1/20

/-- `MAX_TOTAL_EXPOSURE_PCT = 0.40` (40% total exposure). -/
def MAX_TOTAL_EXPOSURE_PCT : ℚ := 2/5

/-- `SIGMA_B = 0.328` as a rational, as interpolated into the SCAN log line. -/
def SIGMA_B_Q : ℚ := 41/125

/-! ### Data model (`trading-engine.ts` lines 31-61, `market-api.ts` lines 5-27) -/

/-- Order side, `'BUY' | 'SELL'`. -/
inductive Side where
  | BUY : Side
  | SELL : Side
deriving DecidableEq

/-- A Polymarket market snapshot. `outcomePrices` is the JSON-string
abstraction described in the header. `usd`-irrelevant display fields
(`volume`, `liquidity`, `endDate`, `active`) are carried but never read
by the engine. -/
structure PolymarketMarket where
  id : String
  question : String
  outcomePrices : Option (List (Option ℚ))
  volume : ℚ
  liquidity : ℚ
  endDate : String
  active : Bool
deriving DecidableEq

/-- A spot price entry from the price fetcher; the engine reads
`id`, `symbol` and `usd` (the nullable 24h-change/volume fields of the
source are never read by the engine and are omitted). -/
structure CoinPrice where
  id : String
  symbol : String
  usd : ℚ
deriving DecidableEq

/-- `EdgeSignal` (lines 31-40). `d2`/`Nd2` are inert payload in the
control-flow model, copied from the model quote. -/
structure EdgeSignal where
  asset : String
  market : PolymarketMarket
  modelFair : ℚ
  mktPrice : ℚ
  divergence : ℚ
  side : Side
  d2 : ℚ
  Nd2 : ℚ
deriving DecidableEq

/-- `SizedPosition` (lines 42-47); `shares` is the `Math.floor` result. -/
structure SizedPosition where
  signal : EdgeSignal
  kellyFraction : ℚ
  sizeUSD : ℚ
  shares : ℤ
deriving DecidableEq

/-- Response of a successful `placeOrder` call. -/
structure ClobOrderResponse where
  orderID : String
  status : String
deriving DecidableEq

/-- `TradeResult` (lines 49-54). -/
structure TradeResult where
  position : SizedPosition
  orderID : String
  status : String
  timestamp : ℤ
deriving DecidableEq

/-- `TradingLog.action` (line 57). -/
inductive LogAction where
  | SCAN : LogAction
  | TRADE : LogAction
  | SKIP : LogAction
  | HALT : LogAction
  | ERROR : LogAction
deriving DecidableEq

/-- Structured stand-in for the interpolated `details` strings, one
constructor per template-literal in the source, carrying the
interpolated numbers. -/
inductive LogDetails where
  | scanSnapshot (d2 Nd2 sigmaB mkt model : ℚ) : LogDetails
  | tradeSignal (side : Side) (edge model mkt : ℚ) : LogDetails
  | skipEdge (edge threshold : ℚ) : LogDetails
  | skipNoSignals : LogDetails
  | skipNoPositions : LogDetails
  | errorBalanceFetch : LogDetails
  | haltZeroBalance : LogDetails
  | haltMaxExposure (pct : ℚ) : LogDetails
  | orderPlaced (side : Side) (priceCents sizeUSD edge kellyPct : ℚ) (orderID : String) : LogDetails
  | orderFailed : LogDetails
  | monitorOrder (assetId : String) (side : Side) (priceCents matched : ℚ) : LogDetails
  | errorMonitor : LogDetails
deriving DecidableEq

/-- `TradingLog` (lines 56-61). -/
structure TradingLog where
  action : LogAction
  asset : Option String
  details : LogDetails
  timestamp : ℤ
deriving DecidableEq

/-- An open CLOB order as consumed by `sizePositions`/`monitorPositions`;
numeric fields are the `parseFloat` results of the source's strings. -/
structure OpenClobOrder where
  price : ℚ
  original_size : ℚ
  size_matched : ℚ
  asset_id : String
  side : Side
deriving DecidableEq

/-- The model quote computed once per cycle from the fixed constants
(`d2`, `N(d2)`, `modelFair = C_bin * 100`), a parameter of the
control-flow model. -/
structure ModelQuote where
  d2 : ℚ
  Nd2 : ℚ
  modelFair : ℚ
deriving DecidableEq

/-! ### `parseOutcomePrices` (lines 79-86) -/

/-- JavaScript `Number(arr[i]) || 0` on the abstracted JSON entry:
an absent index or a non-number entry yields `0`. -/
def jsNumOr0 : Option (Option ℚ) → ℚ
  | some (some v) => v
  | _ => 0

/-- `parseOutcomePrices` (lines 79-86): a parse failure yields `[0, 0]`,
otherwise the first two entries coerced through `Number(·) || 0`. -/
def parseOutcomePrices : Option (List (Option ℚ)) → ℚ × ℚ
  | none => (0, 0)
  | some arr => (jsNumOr0 (arr.get? 0), jsNumOr0 (arr.get? 1))

/-! ### Scan (`scanForEdge`, lines 93-156) -/

/-- The `includes` test of line 112-113: lower-cased `needle` occurs as a
substring of lower-cased `hay`. -/
def containsLower (hay needle : String) : Bool :=
  ((hay.toLower).toList.tails).any fun t => ((needle.toLower).toList).isPrefixOf t

/-- The `prices.find(...)` fuzzy match of lines 111-114. -/
def findMatchedCoin (prices : List CoinPrice) (question : String) : Option CoinPrice :=
  prices.find? fun c => containsLower question c.symbol || containsLower question c.id

/-- The yes-price of a market, `parseOutcomePrices(market.outcomePrices)[0]`. -/
def marketYes (market : PolymarketMarket) : ℚ :=
  (parseOutcomePrices market.outcomePrices).1

/-- The asset symbol used for a market: matched coin's symbol, `'BTC'`
as the no-match fallback (line 117). -/
def assetOf (prices : List CoinPrice) (market : PolymarketMarket) : String :=
  ((findMatchedCoin prices market.question).map fun c => c.symbol).getD "BTC"

/-- One iteration of the market loop of `scanForEdge` (lines 104-153):
the signals and log entries this market contributes. Markets whose
yes-price fails the `(0.02, 0.98)` filter contribute nothing (the
`continue` of line 106). The matched spot value `S` of line 116 is
bound by the source but never read afterwards and is omitted. -/
def scanMarket (mq : ModelQuote) (prices : List CoinPrice) (market : PolymarketMarket) :
    List EdgeSignal × List TradingLog :=
  let yesPrice := marketYes market
  if yesPrice ≤ 1/50 ∨ 49/50 ≤ yesPrice then ([], [])
  else
    let mktPrice := yesPrice * 100
    let asset := assetOf prices market
    let divergence := mq.modelFair - mktPrice
    let scanLog : TradingLog :=
      ⟨.SCAN, some asset, .scanSnapshot mq.d2 mq.Nd2 SIGMA_B_Q mktPrice mq.modelFair, 0⟩
    if EDGE_THRESHOLD ≤ |divergence| then
      let side := if 0 < divergence then Side.BUY else Side.SELL
      ([⟨asset, market, mq.modelFair, mktPrice, divergence, side, mq.d2, mq.Nd2⟩],
        [scanLog, ⟨.TRADE, some asset, .tradeSignal side |divergence| mq.modelFair mktPrice, 0⟩])
    else
      ([], [scanLog, ⟨.SKIP, some asset, .skipEdge |divergence| EDGE_THRESHOLD, 0⟩])

/-- `scanForEdge` (lines 93-156): concatenation of the per-market
contributions, in market order. -/
def scanForEdge (mq : ModelQuote) (prices : List CoinPrice) (markets : List PolymarketMarket) :
    List EdgeSignal × List TradingLog :=
  (markets.flatMap fun m => (scanMarket mq prices m).1,
   markets.flatMap fun m => (scanMarket mq prices m).2)

/-! ### Sizing (`sizePositions`, lines 161-221) -/

/-- The applied Kelly fraction of lines 200-206:
`max(0, min(kellyRaw * KELLY_FRACTION, MAX_POSITION_PCT))` with
`kellyRaw = (p*b - q)/b`, `b = 1/mktP - 1` for BUY and
`1/(1-mktP) - 1` for SELL. -/
def kellyFractionOf (side : Side) (modelFair mktPrice : ℚ) : ℚ :=
  let p := modelFair / 100
  let mktP := mktPrice / 100
  let b := if side = Side.BUY then 1 / mktP - 1 else 1 / (1 - mktP) - 1
  let q := 1 - p
  let kellyRaw := (p * b - q) / b
  max 0 (min (kellyRaw * KELLY_FRACTION) MAX_POSITION_PCT)

/-- Exposure seeded from open orders (lines 184-192): a rejected
`getOpenOrders` is absorbed by the empty `catch`, leaving the seed `0`. -/
def seedExposure : Option (List OpenClobOrder) → ℚ
  | none => 0
  | some orders => orders.foldl (fun acc o => acc + o.original_size * o.price) 0

/-- The share-conversion price of line 211: `mktP` for BUY, `1 − mktP`
for SELL. -/
def sizingPrice (signal : EdgeSignal) : ℚ :=
  if signal.side = Side.BUY then signal.mktPrice / 100 else 1 - signal.mktPrice / 100

/-- The signal loop of `sizePositions` (lines 194-218), with the running
`totalExposure` as explicit state. The exposure check runs before each
signal; reaching the cap pushes a HALT entry and stops (`break`).
Signals whose clamped fraction or floored share count is non-positive
are dropped silently (`continue`). -/
def sizeLoop (balance maxPerPosition exposure : ℚ) :
    List EdgeSignal → List SizedPosition × List TradingLog
  | [] => ([], [])
  | signal :: rest =>
    if balance * MAX_TOTAL_EXPOSURE_PCT ≤ exposure then
      ([], [⟨.HALT, none, .haltMaxExposure (exposure / balance * 100), 0⟩])
    else
      let kf := kellyFractionOf signal.side signal.modelFair signal.mktPrice
      if kf ≤ 0 then sizeLoop balance maxPerPosition exposure rest
      else
        let sizeUSD := min (balance * kf) maxPerPosition
        let shares := Int.floor (sizeUSD / sizingPrice signal)
        if shares ≤ 0 then sizeLoop balance maxPerPosition exposure rest
        else
          let next := sizeLoop balance maxPerPosition (exposure + sizeUSD) rest
          (⟨signal, kf, sizeUSD, shares⟩ :: next.1, next.2)

/-- `sizePositions` (lines 161-221). `balanceFetch` is the outcome of
`getClobBalance` (`none` = rejected; `some v` = resolved, with `v` the
`parseFloat(balance) || 0` value); `openOrdersFetch` the outcome of
`getOpenOrders`. -/
def sizePositions (balanceFetch : Option ℚ) (openOrdersFetch : Option (List OpenClobOrder))
    (signals : List EdgeSignal) : List SizedPosition × List TradingLog :=
  match balanceFetch with
  | none => ([], [⟨.ERROR, none, .errorBalanceFetch, 0⟩])
  | some balance =>
    if balance ≤ 0 then ([], [⟨.HALT, none, .haltZeroBalance, 0⟩])
    else sizeLoop balance (balance * MAX_POSITION_PCT) (seedExposure openOrdersFetch) signals

/-- Sum of the `sizeUSD` of a batch of sized positions: the exposure the
batch adds to the running total. -/
def sizedTotal (ps : List SizedPosition) : ℚ :=
  (ps.map fun p => p.sizeUSD).sum

/-! ### Execution (`executeTrades`, lines 226-269) -/

/-- The execution price of lines 233-234: the parsed yes-price for BUY,
its complement for SELL. -/
def executionPrice (pos : SizedPosition) : ℚ :=
  let yesPrice := (parseOutcomePrices pos.signal.market.outcomePrices).1
  if pos.signal.side = Side.BUY then yesPrice else 1 - yesPrice

/-- `Math.round` (round half toward positive infinity). -/
def jsRound (x : ℚ) : ℤ := Int.floor (x + 1/2)

/-- The venue order built at lines 236-241 (price rounded to a cent). -/
structure ClobOrder where
  tokenID : String
  price : ℚ
  size : ℤ
  side : Side
deriving DecidableEq

/-- Lines 236-241. -/
def mkClobOrder (pos : SizedPosition) : ClobOrder :=
  ⟨pos.signal.market.id, (jsRound (executionPrice pos * 100) : ℚ) / 100, pos.shares,
    pos.signal.side⟩

/-- TradeResult pushed on a resolved `placeOrder` (lines 245-250). -/
def mkTradeResult (pos : SizedPosition) (resp : ClobOrderResponse) : TradeResult :=
  ⟨pos, resp.orderID, resp.status, 0⟩

/-- TRADE log entry of lines 252-257. -/
def tradeLogOf (pos : SizedPosition) (resp : ClobOrderResponse) : TradingLog :=
  ⟨.TRADE, some pos.signal.asset,
    .orderPlaced pos.signal.side (executionPrice pos * 100) pos.sizeUSD
      |pos.signal.divergence| (pos.kellyFraction * 100) resp.orderID, 0⟩

/-- ERROR log entry of lines 259-264. -/
def orderErrorLogOf (pos : SizedPosition) : TradingLog :=
  ⟨.ERROR, some pos.signal.asset, .orderFailed, 0⟩

/-- `executeTrades` (lines 226-269). Each position is paired with the
outcome of its own `placeOrder` call (`none` = the call rejected and the
`catch` of lines 258-265 ran). -/
def executeTrades : List (SizedPosition × Option ClobOrderResponse) →
    List TradeResult × List TradingLog
  | [] => ([], [])
  | (pos, outcome) :: rest =>
    let next := executeTrades rest
    match outcome with
    | some resp => (mkTradeResult pos resp :: next.1, tradeLogOf pos resp :: next.2)
    | none => (next.1, orderErrorLogOf pos :: next.2)

/-! ### Monitoring (`monitorPositions`, lines 274-303) -/

/-- `monitorPositions` (lines 274-303): a rejected `getOpenOrders` gives
one ERROR entry; otherwise one SCAN entry per order with nonzero matched
size. -/
def monitorPositions : Option (List OpenClobOrder) → List TradingLog
  | none => [⟨.ERROR, none, .errorMonitor, 0⟩]
  | some orders =>
    orders.filterMap fun o =>
      if 0 < o.size_matched then
        some ⟨.SCAN, none, .monitorOrder o.asset_id o.side (o.price * 100) o.size_matched, 0⟩
      else none

/-! ### Cycle (`runTradingCycle`, lines 309-339) -/

/-- A rejected promise that nothing catches: the cycle invocation itself
rejects. -/
inductive TransportError where
  | transport : TransportError
deriving DecidableEq

/-- One outcome of every external call a cycle can make. `none` /
`placeOrderResults i = none` is a rejected promise on that call (the
i-th `placeOrder` call for the latter). `getOpenOrders` is called twice
per cycle (sizing, then monitoring) with independent outcomes. -/
structure CycleWorld where
  pricesFetch : Option (List CoinPrice)
  marketsFetch : Option (List PolymarketMarket)
  balanceFetch : Option ℚ
  openOrdersFetch : Option (List OpenClobOrder)
  placeOrderResults : Nat → Option ClobOrderResponse
  monitorOrdersFetch : Option (List OpenClobOrder)

/-- `runTradingCycle` (lines 309-339). The `Promise.all` of
`scanForEdge` (line 97) has no surrounding try/catch anywhere in the
engine, so a rejected price fetch or market fetch rejects the whole
cycle invocation: `Except.error`. All later external calls are caught
inside their components. -/
def runTradingCycle (mq : ModelQuote) (w : CycleWorld) :
    Except TransportError (List TradingLog) :=
  match w.pricesFetch, w.marketsFetch with
  | some prices, some markets =>
    let scan := scanForEdge mq prices markets
    if scan.1 = [] then .ok (scan.2 ++ [⟨.SKIP, none, .skipNoSignals, 0⟩])
    else
      let sized := sizePositions w.balanceFetch w.openOrdersFetch scan.1
      if sized.1 = [] then .ok (scan.2 ++ sized.2 ++ [⟨.SKIP, none, .skipNoPositions, 0⟩])
      else
        let exec := executeTrades (sized.1.enum.map fun ip => (ip.2, w.placeOrderResults ip.1))
        .ok (scan.2 ++ sized.2 ++ exec.2 ++ monitorPositions w.monitorOrdersFetch)
  | _, _ => .error TransportError.transport

/-! ### Shared concrete fixtures -/

/-- An in-range demo market: yes-price `0.40`. -/
def demoMarket : PolymarketMarket :=
  ⟨"m1", "Will Bitcoin hit 100k?", some [some (2/5), some (3/5)], 0, 0, "", true⟩

/-- A near-settled demo market: yes-price `0.01`, outside `(0.02, 0.98)`. -/
def demoSettledMarket : PolymarketMarket :=
  ⟨"m2", "Will Ethereum flip Bitcoin?", some [some (1/100), some (99/100)], 0, 0, "", true⟩

/-- A demo market whose `outcomePrices` fails to parse. -/
def demoBadMarket : PolymarketMarket :=
  ⟨"m3", "Will Solana hit 500?", none, 0, 0, "", true⟩

/-- Demo signal with `modelFair = 56`, `mktPrice = 50`, side BUY: its
applied Kelly fraction is `0.03`. -/
def demoSignal : EdgeSignal :=
  ⟨"BTC", demoMarket, 56, 50, 6, Side.BUY, 0, 1/2⟩

/-- The spec's Kelly scenario signal: `modelFair = 55`, `mktPrice = 50`,
side BUY. -/
def kellySignal : EdgeSignal :=
  ⟨"BTC", demoMarket, 55, 50, 5, Side.BUY, 0, 1/2⟩

/-! ### C3 — edge-detector emission behaviour -/

/-- C3: for a market with yes-price strictly inside `(0.02, 0.98)`, the
detector emits no signal when `|modelFair − mktPrice| < EDGE_THRESHOLD`
(it appends a SCAN entry and a SKIP entry recording the sub-threshold
edge), and emits exactly one signal, side BUY when the divergence is
positive and SELL otherwise, when `|divergence| ≥ EDGE_THRESHOLD`;
a market with yes-price `≤ 0.02` or `≥ 0.98` contributes no signal and
no log entry at all. -/
theorem c3_edge_detector (mq : ModelQuote) (prices : List CoinPrice) (m : PolymarketMarket) :
    (marketYes m ≤ 1/50 ∨ 49/50 ≤ marketYes m → scanMarket mq prices m = ([], [])) ∧
    (1/50 < marketYes m → marketYes m < 49/50 →
      |mq.modelFair - marketYes m * 100| < EDGE_THRESHOLD →
      (scanMarket mq prices m).1 = [] ∧
      (scanMarket mq prices m).2 =
        [⟨.SCAN, some (assetOf prices m),
           .scanSnapshot mq.d2 mq.Nd2 SIGMA_B_Q (marketYes m * 100) mq.modelFair, 0⟩,
         ⟨.SKIP, some (assetOf prices m),
           .skipEdge |mq.modelFair - marketYes m * 100| EDGE_THRESHOLD, 0⟩]) ∧
    (1/50 < marketYes m → marketYes m < 49/50 →
      EDGE_THRESHOLD ≤ |mq.modelFair - marketYes m * 100| →
      (scanMarket mq prices m).1 =
        [⟨assetOf prices m, m, mq.modelFair, marketYes m * 100,
          mq.modelFair - marketYes m * 100,
          if 0 < mq.modelFair - marketYes m * 100 then Side.BUY else Side.SELL,
          mq.d2, mq.Nd2⟩]) := by
  refine ⟨fun h => ?_, fun h1 h2 h3 => ?_, fun h1 h2 h3 => ?_⟩
  · simp only [scanMarket]
    rw [if_pos h]
  · have hrange : ¬(marketYes m ≤ 1/50 ∨ 49/50 ≤ marketYes m) := by
      push_neg
      exact ⟨h1, h2⟩
    constructor <;>
      · simp only [scanMarket]
        rw [if_neg hrange, if_neg (not_le.mpr h3)]
  · have hrange : ¬(marketYes m ≤ 1/50 ∨ 49/50 ≤ marketYes m) := by
      push_neg
      exact ⟨h1, h2⟩
    simp only [scanMarket]
    rw [if_neg hrange, if_pos h3]

/-- Witness for C3: the three branches exercised on concrete markets
(`modelFair = 50` against yes-price `0.40` fires a BUY signal;
`modelFair = 41` against the same market is a sub-threshold SKIP;
the yes-price `0.01` market contributes nothing). -/
theorem c3_edge_detector_witness :
    scanMarket ⟨0, 1/2, 41⟩ [] demoSettledMarket = ([], []) ∧
    (scanMarket ⟨0, 1/2, 41⟩ [] demoMarket).1 = [] ∧
    (scanMarket ⟨0, 1/2, 50⟩ [] demoMarket).1 =
      [⟨assetOf [] demoMarket, demoMarket, 50, marketYes demoMarket * 100,
        50 - marketYes demoMarket * 100,
        if 0 < 50 - marketYes demoMarket * 100 then Side.BUY else Side.SELL, 0, 1/2⟩] := by
  refine ⟨(c3_edge_detector ⟨0, 1/2, 41⟩ [] demoSettledMarket).1 ?_,
    ((c3_edge_detector ⟨0, 1/2, 41⟩ [] demoMarket).2.1 ?_ ?_ ?_).1,
    (c3_edge_detector ⟨0, 1/2, 50⟩ [] demoMarket).2.2 ?_ ?_ ?_⟩ <;>
    norm_num [marketYes, parseOutcomePrices, jsNumOr0, demoMarket, demoSettledMarket,
      EDGE_THRESHOLD]

/-! ### C10 — malformed outcome-price data is harmless -/

/-- A raw `outcomePrices` value that is not valid JSON (`none`) or whose
entries are all non-numbers. -/
def badOutcomeRaw (raw : Option (List (Option ℚ))) : Prop :=
  raw = none ∨ ∃ l, raw = some l ∧ ∀ e ∈ l, e = none

/-- C10: parsing is total — a malformed `outcomePrices` yields `[0, 0]`
— and since a yes-price of `0` fails the `(0.02, 0.98)` filter, a
market with malformed price data contributes no signal and no log entry
to the scan: removing it leaves `scanForEdge` unchanged. -/
theorem c10_malformed_prices_harmless :
    (∀ raw, badOutcomeRaw raw → parseOutcomePrices raw = (0, 0)) ∧
    (∀ (mq : ModelQuote) (prices : List CoinPrice) (ms1 ms2 : List PolymarketMarket)
      (m : PolymarketMarket), badOutcomeRaw m.outcomePrices →
      scanForEdge mq prices (ms1 ++ m :: ms2) = scanForEdge mq prices (ms1 ++ ms2)) := by
  have hparse : ∀ raw, badOutcomeRaw raw → parseOutcomePrices raw = (0, 0) := by
    rintro raw (rfl | ⟨l, rfl, hl⟩)
    · rfl
    · have h0 : ∀ i, jsNumOr0 (l.get? i) = 0 := by
        intro i
        cases h : l.get? i with
        | none => rfl
        | some e =>
          have := hl e (List.get?_mem h)
          subst this
          rfl
      simp only [parseOutcomePrices, h0]
  refine ⟨hparse, fun mq prices ms1 ms2 m hm => ?_⟩
  have hskip : scanMarket mq prices m = ([], []) := by
    simp only [scanMarket, marketYes, hparse m.outcomePrices hm]
    norm_num
  simp only [scanForEdge, List.flatMap_append, List.flatMap_cons, hskip]
  simp

/-- Witness for C10: a parse-failing market and an all-non-number market
are both mapped to `[0, 0]`, and dropping the parse-failing market from
a concrete scan changes nothing. -/
theorem c10_malformed_prices_witness :
    parseOutcomePrices demoBadMarket.outcomePrices = (0, 0) ∧
    parseOutcomePrices (some [none, none]) = (0, 0) ∧
    scanForEdge ⟨0, 1/2, 50⟩ [] ([demoMarket] ++ demoBadMarket :: []) =
      scanForEdge ⟨0, 1/2, 50⟩ [] ([demoMarket] ++ []) := by
  refine ⟨c10_malformed_prices_harmless.1 _ ?_, c10_malformed_prices_harmless.1 _ ?_,
    c10_malformed_prices_harmless.2 _ _ _ _ _ ?_⟩
  · exact Or.inl rfl
  · exact Or.inr ⟨[none, none], rfl, by simp⟩
  · exact Or.inl rfl

/-! ### C1 — sizing caps -/

/-- Every sized position's `sizeUSD` is capped by `maxPerPosition`
(the `min` of line 210). -/
lemma sizeLoop_sizeUSD_le (sigs : List EdgeSignal) :
    ∀ (bal maxP exp2 : ℚ) (P : SizedPosition),
      P ∈ (sizeLoop bal maxP exp2 sigs).1 → P.sizeUSD ≤ maxP := by
  induction sigs with
  | nil =>
    intro bal maxP exp2 P hP
    simp [sizeLoop] at hP
  | cons s rest ih =>
    intro bal maxP exp2 P hP
    simp only [sizeLoop] at hP
    split_ifs at hP with hhalt hkf hsh
    · simp at hP
    · exact ih bal maxP exp2 P hP
    · exact ih bal maxP exp2 P hP
    · rcases List.mem_cons.mp hP with rfl | hmem
      · exact min_le_right _ _
      · exact ih bal maxP _ P hmem

/-- Exposure at or above the cap halts the loop before sizing anything. -/
lemma sizeLoop_halts (bal maxP exp2 : ℚ) (s : EdgeSignal) (sigs : List EdgeSignal)
    (h : bal * MAX_TOTAL_EXPOSURE_PCT ≤ exp2) :
    sizeLoop bal maxP exp2 (s :: sigs) =
      ([], [⟨.HALT, none, .haltMaxExposure (exp2 / bal * 100), 0⟩]) := by
  simp only [sizeLoop]
  rw [if_pos h]

/-- If the loop sized anything, the final exposure stays strictly below
cap plus one maximal position: each admission happens strictly below the
cap and adds at most `maxP`. -/
lemma sizeLoop_total_lt (sigs : List EdgeSignal) :
    ∀ (bal maxP exp2 : ℚ), (sizeLoop bal maxP exp2 sigs).1 ≠ [] →
      exp2 + sizedTotal (sizeLoop bal maxP exp2 sigs).1 <
        bal * MAX_TOTAL_EXPOSURE_PCT + maxP := by
  induction sigs with
  | nil =>
    intro bal maxP exp2 hne
    simp [sizeLoop] at hne
  | cons s rest ih =>
    intro bal maxP exp2 hne
    simp only [sizeLoop] at hne ⊢
    split_ifs at hne ⊢ with hhalt hkf hsh
    · simp at hne
    · exact ih bal maxP exp2 hne
    · exact ih bal maxP exp2 hne
    · push_neg at hhalt
      have hszu : min (bal * kellyFractionOf s.side s.modelFair s.mktPrice) maxP ≤ maxP :=
        min_le_right _ _
      rcases eq_or_ne (sizeLoop bal maxP
          (exp2 + min (bal * kellyFractionOf s.side s.modelFair s.mktPrice) maxP) rest).1
          [] with hnil | hnil
      · simp only [sizedTotal, List.map_cons, List.sum_cons, hnil, List.map_nil,
          List.sum_nil, add_zero]
        linarith
      · have := ih bal maxP
          (exp2 + min (bal * kellyFractionOf s.side s.modelFair s.mktPrice) maxP) hnil
        simp only [sizedTotal, List.map_cons, List.sum_cons] at this ⊢
        linarith

/-- C1 (amended): every sized position satisfies
`sizeUSD ≤ balance * MAX_POSITION_PCT`; reaching the exposure cap stops
the loop with a HALT entry and skips all remaining signals; and — since
the cap is checked before each admission, not after — the aggregate
exposure of a non-empty sizing pass is strictly below
`balance * (MAX_TOTAL_EXPOSURE_PCT + MAX_POSITION_PCT)` rather than
below `balance * MAX_TOTAL_EXPOSURE_PCT`. -/
theorem c1_sizing_caps (bv : ℚ) (orders : Option (List OpenClobOrder))
    (signals : List EdgeSignal) :
    (∀ P ∈ (sizePositions (some bv) orders signals).1, P.sizeUSD ≤ bv * MAX_POSITION_PCT) ∧
    (∀ (bal exposure : ℚ) (s : EdgeSignal) (sigs : List EdgeSignal),
      bal * MAX_TOTAL_EXPOSURE_PCT ≤ exposure →
      sizeLoop bal (bal * MAX_POSITION_PCT) exposure (s :: sigs) =
        ([], [⟨.HALT, none, .haltMaxExposure (exposure / bal * 100), 0⟩])) ∧
    ((sizePositions (some bv) orders signals).1 ≠ [] →
      seedExposure orders + sizedTotal (sizePositions (some bv) orders signals).1 <
        bv * (MAX_TOTAL_EXPOSURE_PCT + MAX_POSITION_PCT)) := by
  refine ⟨?_, fun bal exposure s sigs h => sizeLoop_halts bal _ exposure s sigs h, ?_⟩
  · intro P hP
    simp only [sizePositions] at hP
    split_ifs at hP with hb
    · simp at hP
    · exact sizeLoop_sizeUSD_le signals bv _ _ P hP
  · intro hne
    simp only [sizePositions] at hne ⊢
    split_ifs at hne ⊢ with hb
    · simp at hne
    · have := sizeLoop_total_lt signals bv (bv * MAX_POSITION_PCT) (seedExposure orders) hne
      linarith [this]

/-- Counterexample for C1 as stated: with balance 100 and fourteen
identical BUY signals each sized at `0.03 * balance = 3`, the exposure
check (`39 < 40` before the fourteenth admission) never fires, and the
pass accumulates `42 > 100 * MAX_TOTAL_EXPOSURE_PCT = 40`. -/
theorem c1_sizing_counterexample :
    sizedTotal (sizePositions (some 100) (some []) (List.replicate 14 demoSignal)).1 = 42 ∧
    ¬(sizedTotal (sizePositions (some 100) (some []) (List.replicate 14 demoSignal)).1 ≤
        100 * MAX_TOTAL_EXPOSURE_PCT) := by
  norm_num [sizePositions, sizeLoop, sizingPrice, seedExposure, sizedTotal, kellyFractionOf,
    KELLY_FRACTION, MAX_POSITION_PCT, MAX_TOTAL_EXPOSURE_PCT, demoSignal, List.replicate]

/-- Witness for C1 (amended) at balance 100, empty open orders and the
one-signal list. -/
theorem c1_sizing_caps_witness :
    (⟨demoSignal, 3/100, 3, 6⟩ : SizedPosition).sizeUSD ≤ 100 * MAX_POSITION_PCT ∧
    sizeLoop 100 (100 * MAX_POSITION_PCT) 40 [demoSignal] =
      ([], [⟨.HALT, none, .haltMaxExposure (40 / 100 * 100), 0⟩]) ∧
    seedExposure (some []) + sizedTotal (sizePositions (some 100) (some []) [demoSignal]).1 <
      100 * (MAX_TOTAL_EXPOSURE_PCT + MAX_POSITION_PCT) := by
  obtain ⟨h1, h2, h3⟩ := c1_sizing_caps 100 (some []) [demoSignal]
  refine ⟨h1 _ ?_, h2 100 40 demoSignal [] (by norm_num [MAX_TOTAL_EXPOSURE_PCT]), h3 ?_⟩
  · norm_num [sizePositions, sizeLoop, sizingPrice, seedExposure, kellyFractionOf,
      KELLY_FRACTION, MAX_POSITION_PCT, MAX_TOTAL_EXPOSURE_PCT, demoSignal]
  · norm_num [sizePositions, sizeLoop, sizingPrice, seedExposure, kellyFractionOf,
      KELLY_FRACTION, MAX_POSITION_PCT, MAX_TOTAL_EXPOSURE_PCT, demoSignal]

/-! ### C4 — Kelly formula -/

/-- Follows the spec's words (§4.3): with model probability `p` and
market-implied probability `mktP`, odds `b = 1/mktP − 1` for BUY and
`1/(1−mktP) − 1` for SELL, `q = 1 − p`, `kelly* = (p·b − q)/b`; the
applied fraction is `kelly* × 0.25` clamped to `[0, 0.05]`. -/
def kellySpecFraction (side : Side) (p mktP : ℚ) : ℚ :=
  let b := if side = Side.BUY then 1 / mktP - 1 else 1 / (1 - mktP) - 1
  let q := 1 - p
  let kellyStar := (p * b - q) / b
  min (max (kellyStar * (1/4)) 0) (1/20)

/-- C4: the applied Kelly fraction of the sizer equals the spec formula
for probabilities strictly inside `(0, 1)`; the spec's scenario
`p = 0.55`, `mktP = 0.50`, BUY yields the applied fraction `0.025`, and
sizing that signal with balance 100 yields `sizeUSD = 100 * 0.025`. -/
theorem c4_kelly_fraction :
    (∀ (side : Side) (modelFair mktPrice : ℚ),
      0 < modelFair / 100 → modelFair / 100 < 1 →
      0 < mktPrice / 100 → mktPrice / 100 < 1 →
      kellyFractionOf side modelFair mktPrice =
        kellySpecFraction side (modelFair / 100) (mktPrice / 100)) ∧
    kellyFractionOf Side.BUY 55 50 = 1/40 ∧
    sizePositions (some 100) (some []) [kellySignal] = ([⟨kellySignal, 1/40, 5/2, 5⟩], []) := by
  refine ⟨fun side mf mp _ _ _ _ => ?_, ?_, ?_⟩
  · have hclamp : ∀ x : ℚ, max 0 (min x (1/20)) = min (max x 0) (1/20) := by
      intro x
      rw [max_min_distrib_left, max_eq_right (by norm_num : (0:ℚ) ≤ 1/20), max_comm]
    simp only [kellyFractionOf, kellySpecFraction, KELLY_FRACTION, MAX_POSITION_PCT]
    exact hclamp _
  · norm_num [kellyFractionOf, KELLY_FRACTION, MAX_POSITION_PCT]
  · norm_num [sizePositions, sizeLoop, sizingPrice, seedExposure, kellyFractionOf,
      KELLY_FRACTION, MAX_POSITION_PCT, MAX_TOTAL_EXPOSURE_PCT, kellySignal]

/-- Witness for C4 at the spec's scenario values. -/
theorem c4_kelly_fraction_witness :
    kellyFractionOf Side.BUY 55 50 = kellySpecFraction Side.BUY (55/100) (50/100) ∧
    kellyFractionOf Side.BUY 55 50 = 1/40 := by
  exact ⟨c4_kelly_fraction.1 Side.BUY 55 50 (by norm_num) (by norm_num) (by norm_num)
    (by norm_num), c4_kelly_fraction.2.1⟩

/-! ### C8 — open-order lookup failure during sizing -/

/-- C8 (amended): when the open-order lookup fails, exposure is seeded
as zero and the pass proceeds exactly as if there were no open orders —
but the `catch` of lines 190-192 is empty, so no log entry of any kind
marks the degraded path. -/
theorem c8_silent_zero_seed (balanceFetch : Option ℚ) (signals : List EdgeSignal) :
    sizePositions balanceFetch none signals = sizePositions balanceFetch (some []) signals := by
  cases balanceFetch <;> simp [sizePositions, seedExposure]

/-- Counterexample for C8 as stated: with a failed open-order lookup the
pass still sizes the signal (so the cycle is not aborted), yet the log
list is empty — in particular no best-effort entry records the
zero-exposure assumption. -/
theorem c8_no_besteffort_log :
    sizePositions (some 100) none [demoSignal] = ([⟨demoSignal, 3/100, 3, 6⟩], []) := by
  norm_num [sizePositions, sizeLoop, sizingPrice, seedExposure, kellyFractionOf,
    KELLY_FRACTION, MAX_POSITION_PCT, MAX_TOTAL_EXPOSURE_PCT, demoSignal]

/-! ### C6 — per-order failure isolation -/

/-- `executeTrades` distributes over concatenation of its input batch. -/
lemma executeTrades_append (xs ys : List (SizedPosition × Option ClobOrderResponse)) :
    executeTrades (xs ++ ys) =
      ((executeTrades xs).1 ++ (executeTrades ys).1,
       (executeTrades xs).2 ++ (executeTrades ys).2) := by
  induction xs with
  | nil => simp [executeTrades]
  | cons x rest ih =>
    obtain ⟨pos, outcome⟩ := x
    cases outcome <;> simp [executeTrades, ih]

/-- A batch whose placements all resolve yields one TradeResult and one
TRADE entry per position, in order. -/
lemma executeTrades_all_ok (B : List (SizedPosition × ClobOrderResponse)) :
    executeTrades (B.map fun x => (x.1, some x.2)) =
      (B.map fun x => mkTradeResult x.1 x.2, B.map fun x => tradeLogOf x.1 x.2) := by
  induction B with
  | nil => simp [executeTrades]
  | cons x rest ih => simp [executeTrades, ih]

/-- TRADE log entries never test as ERROR entries. -/
lemma tradeLogs_filter_error (L : List (SizedPosition × ClobOrderResponse)) :
    (L.map fun x => tradeLogOf x.1 x.2).filter (fun l => l.action == LogAction.ERROR) = [] := by
  induction L with
  | nil => rfl
  | cons x rest ih =>
    rw [List.map_cons, List.filter_cons_of_neg (by simp [tradeLogOf])]
    exact ih

/-- TRADE log entries all test as TRADE entries. -/
lemma tradeLogs_filter_trade (L : List (SizedPosition × ClobOrderResponse)) :
    (L.map fun x => tradeLogOf x.1 x.2).filter (fun l => l.action == LogAction.TRADE) =
      L.map fun x => tradeLogOf x.1 x.2 := by
  induction L with
  | nil => rfl
  | cons x rest ih =>
    rw [List.map_cons, List.filter_cons_of_pos (by simp [tradeLogOf])]
    rw [ih]

/-- C6: in a batch where exactly one placement (the one paired with
`none`) rejects and all others resolve, execution returns one
TradeResult per surviving position in order (so `N − 1` results),
appends exactly one ERROR entry — carrying the failed position's asset —
and one TRADE entry per surviving position; the failure aborts nothing. -/
theorem c6_failure_isolation (A B : List (SizedPosition × ClobOrderResponse))
    (pos : SizedPosition) :
    (executeTrades ((A.map fun x => (x.1, some x.2)) ++
        (pos, (none : Option ClobOrderResponse)) :: (B.map fun x => (x.1, some x.2)))).1.map
        (fun r => r.position) = (A.map fun x => x.1) ++ (B.map fun x => x.1) ∧
    (executeTrades ((A.map fun x => (x.1, some x.2)) ++
        (pos, (none : Option ClobOrderResponse)) :: (B.map fun x => (x.1, some x.2)))).1.length =
      A.length + B.length ∧
    (executeTrades ((A.map fun x => (x.1, some x.2)) ++
        (pos, (none : Option ClobOrderResponse)) :: (B.map fun x => (x.1, some x.2)))).2.filter
        (fun l => l.action == LogAction.ERROR) = [orderErrorLogOf pos] ∧
    ((executeTrades ((A.map fun x => (x.1, some x.2)) ++
        (pos, (none : Option ClobOrderResponse)) :: (B.map fun x => (x.1, some x.2)))).2.filter
        (fun l => l.action == LogAction.TRADE)).length = A.length + B.length ∧
    (orderErrorLogOf pos).asset = some pos.signal.asset := by
  have hmid : executeTrades ((pos, (none : Option ClobOrderResponse)) ::
      (B.map fun x => (x.1, some x.2))) =
      ((B.map fun x => mkTradeResult x.1 x.2),
        orderErrorLogOf pos :: (B.map fun x => tradeLogOf x.1 x.2)) := by
    simp [executeTrades, executeTrades_all_ok]
  rw [executeTrades_append, hmid, executeTrades_all_ok]
  refine ⟨?_, ?_, ?_, ?_, rfl⟩
  · simp [mkTradeResult, Function.comp_def]
  · simp
  · simp only [List.filter_append, tradeLogs_filter_error, List.filter_cons]
    simp [orderErrorLogOf, tradeLogs_filter_error]
  · simp only [List.filter_append, tradeLogs_filter_trade, List.filter_cons]
    simp [orderErrorLogOf, tradeLogs_filter_trade]

/-! ### C2 — cycle totality and failure propagation -/

/-- C2 (amended): the cycle returns normally with a log exactly when
both scan-stage fetches (spot prices and markets) deliver values —
those two rejections propagate out of `runTradingCycle` uncaught. The
later external calls never reject the cycle: a balance-fetch failure is
recovered inside `sizePositions` as an empty result plus an ERROR
entry, and a monitor-lookup failure as a single ERROR entry. -/
theorem c2_cycle_totality :
    (∀ (mq : ModelQuote) (w : CycleWorld),
      (runTradingCycle mq w).isOk = (w.pricesFetch.isSome && w.marketsFetch.isSome)) ∧
    (∀ (orders : Option (List OpenClobOrder)) (sigs : List EdgeSignal),
      sizePositions none orders sigs = ([], [⟨.ERROR, none, .errorBalanceFetch, 0⟩])) ∧
    monitorPositions none = [⟨.ERROR, none, .errorMonitor, 0⟩] := by
  refine ⟨fun mq w => ?_, fun orders sigs => rfl, rfl⟩
  obtain ⟨ps, ms, bf, oo, pr, mo⟩ := w
  cases ps <;> cases ms <;> simp only [runTradingCycle, Option.isSome] <;>
    first
      | rfl
      | (split_ifs <;> rfl)

/-- Counterexample for C2 as stated: a rejected spot-price fetch (with
everything else healthy) makes the whole cycle invocation reject — no
log, no structured summary, no observable result from the cycle itself. -/
theorem c2_cycle_counterexample :
    runTradingCycle ⟨0, 1/2, 50⟩
      ⟨none, some [demoMarket], some 100, some [], fun _ => none, some []⟩ =
      .error .transport := rfl

/-! ### Real-valued pricing and quoting model

The analytic part of the engine (`trading-engine.ts` lines 65-77 and
119-124, and the quote computation of the treasury page, steps 3-9 of
its `derived` block). `Math.exp/sqrt/log/abs` are `Real.exp/sqrt/log`
and `|·|`; decimal literals are exact. The fixed model constants are
generalised to parameters exactly where the claims quantify over them
(σ, T, r for pricing; γ, σ_b, T, k, p for quoting). -/

noncomputable section

/-- `SIGMA = 0.50` (line 13). -/
def SIGMA : ℝ := 0.50

/-- `T_EXP = 0.0000095` (line 14). -/
def T_EXP : ℝ := 0.0000095

/-- `R_FREE = 0.0433` (line 15). -/
def R_FREE : ℝ := 0.0433

/-- `GAMMA = 0.10` (line 16). -/
def GAMMA : ℝ := 0.10

/-- `SIGMA_B = 0.328` (line 17). -/
def SIGMA_B : ℝ := 0.328

/-- `K_DECAY = 1.50` (line 18). -/
def K_DECAY : ℝ := 1.50

/-- The Abramowitz-Stegun constant `p = 0.3275911` of line 71. -/
def AS_P : ℝ := 0.3275911

/-- The Horner polynomial of line 75,
`((((a5*t + a4)*t + a3)*t + a2)*t + a1) * t`, named so the `normalCDF`
lemmas can bound it. -/
def asPoly (t : ℝ) : ℝ :=
  ((((1.061405429 * t + -1.453152027) * t + 1.421413741) * t + -0.284496736) * t
    + 0.254829592) * t

/-- The rational-approximation argument `t = 1 / (1 + p * z)` of
line 74, with `z = |x| / √2`. -/
def tA (x : ℝ) : ℝ := 1 / (1 + AS_P * (|x| / Real.sqrt 2))

/-- `normalCDF` (lines 65-77): the Abramowitz-Stegun approximation of
the standard normal CDF used by the engine. -/
def normalCDF (x : ℝ) : ℝ :=
  let sign : ℝ := if x < 0 then -1 else 1
  let z := |x| / Real.sqrt 2
  let y := 1 - asPoly (1 / (1 + AS_P * z)) * Real.exp (-(z * z))
  0.5 * (1 + sign * y)

/-- `d2` of line 121, with the engine's fixed constants generalised:
`(r − 0.5σσ)·T / (σ·√T)`. -/
def d2f (sigma T r : ℝ) : ℝ :=
  (r - 0.5 * sigma * sigma) * T / (sigma * Real.sqrt T)

/-- `modelFair` of lines 122-124, generalised:
`exp(−rT) · N(d2) · 100`. -/
def fairValue (sigma T r : ℝ) : ℝ :=
  Real.exp (-(r * T)) * normalCDF (d2f sigma T r) * 100

/-- The pricing-failure type named by the spec (§7). The engine defines
no such type; it exists here only to state the spec's failure claim. -/
inductive DomainError where
  | domain : DomainError
deriving DecidableEq

/-- The pricing block of lines 119-124 viewed as a fallible
computation: the source has no guard and no failure branch, so the
embedding is `Except.ok` on every input. -/
def priceBinaryE (sigma T r : ℝ) : Except DomainError (ℝ × ℝ × ℝ) :=
  .ok (d2f sigma T r, normalCDF (d2f sigma T r), fairValue sigma T r)

/-! Quote engine (treasury page, `derived` steps 6-9). -/

/-- The Avellaneda-Stoikov half-spread of the page's step 8,
`γ·σ_b²·T/2 + (1/γ)·ln(1 + γ/k)`, with the jittered constants
generalised to parameters. -/
def delta_x (gamma sigma_b T k : ℝ) : ℝ :=
  gamma * sigma_b * sigma_b * T / 2 + (1 / gamma) * Real.log (1 + gamma / k)

/-- The logistic map `v ↦ 1 / (1 + exp(−v))` of step 9. -/
def logistic (v : ℝ) : ℝ := 1 / (1 + Real.exp (-v))

/-- The fair-value logit `x_t = ln(p / (1 − p))` of step 7. -/
def logitOf (p : ℝ) : ℝ := Real.log (p / (1 - p))

/-- `p_bid` of step 9: the logit shifted down by the half-spread,
mapped back through the logistic. -/
def p_bid (p gamma sigma_b T k : ℝ) : ℝ :=
  logistic (logitOf p - delta_x gamma sigma_b T k)

/-- `p_ask` of step 9: the logit shifted up by the half-spread. -/
def p_ask (p gamma sigma_b T k : ℝ) : ℝ :=
  logistic (logitOf p + delta_x gamma sigma_b T k)

end

/-! ### Bounds for the Abramowitz-Stegun polynomial -/

/-- On `[0, 1]` the line-75 polynomial stays in `[0, 17/10]`. -/
lemma asPoly_bounds {t : ℝ} (ht0 : 0 ≤ t) (ht1 : t ≤ 1) :
    0 ≤ asPoly t ∧ asPoly t ≤ 17/10 := by
  unfold asPoly
  constructor
  · have hq : (0:ℝ) ≤ (((1.061405429 * t + -1.453152027) * t + 1.421413741) * t
        + -0.284496736) * t + 0.254829592 := by
      nlinarith [sq_nonneg (t*t - 0.684539*t), sq_nonneg (t - 0.15394), sq_nonneg t,
        mul_nonneg ht0 ht0]
    exact mul_nonneg hq ht0
  · have h2 : 0 ≤ t * t := mul_nonneg ht0 ht0
    have h3 : 0 ≤ t * t * t := mul_nonneg h2 ht0
    have h4 : 0 ≤ t * t * t * t := mul_nonneg h3 ht0
    have h5 : 0 ≤ t * t * t * t * (1 - t) := mul_nonneg h4 (by linarith)
    have h6 : 0 ≤ t * t * (1 - t) * (1 + t) := by
      have := mul_nonneg (mul_nonneg h2 (by linarith : (0:ℝ) ≤ 1 - t))
        (by linarith : (0:ℝ) ≤ 1 + t)
      linarith [this]
    nlinarith [h5, h6, h3, h4, mul_nonneg h3 (by linarith : (0:ℝ) ≤ 1 - t)]

/-- The argument `t` of the approximation lies in `(0, 1]`. -/
lemma tA_mem (x : ℝ) : 0 < tA x ∧ tA x ≤ 1 := by
  have hz : 0 ≤ |x| / Real.sqrt 2 :=
    div_nonneg (abs_nonneg x) (Real.sqrt_nonneg 2)
  have hp : (0:ℝ) < AS_P := by norm_num [AS_P]
  have hden : (1:ℝ) ≤ 1 + AS_P * (|x| / Real.sqrt 2) := by nlinarith
  constructor
  · exact div_pos one_pos (lt_of_lt_of_le one_pos hden)
  · rw [tA, div_le_one (lt_of_lt_of_le one_pos hden)]
    exact hden

/-- For `x ≥ 0` the approximation reads
`N(x) = 1 − 0.5 · P(t) · exp(−x²/2)`. -/
lemma normalCDF_eq_nonneg (x : ℝ) (hx : 0 ≤ x) :
    normalCDF x = 1 - 0.5 * (asPoly (tA x) * Real.exp (-(x^2/2))) := by
  have h2 : Real.sqrt 2 * Real.sqrt 2 = 2 := Real.mul_self_sqrt (by norm_num)
  have hzz : |x| / Real.sqrt 2 * (|x| / Real.sqrt 2) = x^2/2 := by
    rw [div_mul_div_comm, h2, abs_mul_abs_self]
    ring
  simp only [normalCDF, tA]
  rw [if_neg (not_lt.mpr hx), hzz]
  ring

/-- For `x < 0` the approximation reads
`N(x) = 0.5 · P(t) · exp(−x²/2)`. -/
lemma normalCDF_eq_neg (x : ℝ) (hx : x < 0) :
    normalCDF x = 0.5 * (asPoly (tA x) * Real.exp (-(x^2/2))) := by
  have h2 : Real.sqrt 2 * Real.sqrt 2 = 2 := Real.mul_self_sqrt (by norm_num)
  have hzz : |x| / Real.sqrt 2 * (|x| / Real.sqrt 2) = x^2/2 := by
    rw [div_mul_div_comm, h2, abs_mul_abs_self]
    ring
  simp only [normalCDF, tA]
  rw [if_pos hx, hzz]
  ring

/-- The approximation always lands in `[0, 1]`. -/
lemma normalCDF_bounds (x : ℝ) : 0 ≤ normalCDF x ∧ normalCDF x ≤ 1 := by
  obtain ⟨ht0, ht1⟩ := tA_mem x
  obtain ⟨hP0, hP1⟩ := asPoly_bounds ht0.le ht1
  have hE0 : 0 < Real.exp (-(x^2/2)) := Real.exp_pos _
  have hE1 : Real.exp (-(x^2/2)) ≤ 1 := by
    rw [Real.exp_le_one_iff]
    nlinarith [sq_nonneg x]
  rcases lt_or_le x 0 with hx | hx
  · rw [normalCDF_eq_neg x hx]
    constructor <;> nlinarith
  · rw [normalCDF_eq_nonneg x hx]
    constructor <;> nlinarith

/-! ### C5 — fair-value range and monotonicity -/

/-- The square of `d2` in rational form. -/
lemma d2f_sq (sigma T r : ℝ) (hσ : 0 < sigma) (hT : 0 < T) :
    (d2f sigma T r)^2 = (r - 0.5 * sigma * sigma)^2 * T / (sigma * sigma) := by
  rw [d2f, div_pow, mul_pow, mul_pow, Real.sq_sqrt hT.le]
  field_simp
  ring

/-- C5 (amended): for every `σ > 0`, `T > 0` and every `r`, the model
fair value `exp(−rT)·N(d2)·100` lies in `[0, 100]`. (The claim's
monotonicity in `r` is dropped: it fails, see the counterexample.) -/
theorem c5_fairValue_range (sigma T r : ℝ) (hσ : 0 < sigma) (hT : 0 < T) :
    0 ≤ fairValue sigma T r ∧ fairValue sigma T r ≤ 100 := by
  obtain ⟨hN0, hN1⟩ := normalCDF_bounds (d2f sigma T r)
  have hEpos : 0 < Real.exp (-(r * T)) := Real.exp_pos _
  refine ⟨?_, ?_⟩
  · rw [fairValue]
    exact mul_nonneg (mul_nonneg hEpos.le hN0) (by norm_num)
  rw [fairValue]
  rcases le_or_lt 0 (d2f sigma T r) with hx | hx
  · have hden : 0 < sigma * Real.sqrt T := mul_pos hσ (Real.sqrt_pos.mpr hT)
    rw [d2f, le_div_iff₀ hden] at hx
    have hrc : 0 ≤ r - 0.5 * sigma * sigma := by nlinarith
    have hr : 0 < r := by nlinarith
    have hE1 : Real.exp (-(r * T)) ≤ 1 := by
      rw [Real.exp_le_one_iff]
      nlinarith
    have := mul_le_one₀ hE1 hN0 hN1
    nlinarith [this]
  · rw [normalCDF_eq_neg _ hx]
    obtain ⟨ht0, ht1⟩ := tA_mem (d2f sigma T r)
    obtain ⟨hP0, hP1⟩ := asPoly_bounds ht0.le ht1
    have hexp_eq : -(r*T) + -((d2f sigma T r)^2/2) =
        -(T * (r + 0.5 * sigma * sigma)^2 / (2 * (sigma * sigma))) := by
      rw [d2f_sq sigma T r hσ hT]
      field_simp
      ring
    have hEE : Real.exp (-(r*T)) * Real.exp (-((d2f sigma T r)^2/2)) ≤ 1 := by
      rw [← Real.exp_add, Real.exp_le_one_iff, hexp_eq, neg_nonpos]
      positivity
    have hkey : asPoly (tA (d2f sigma T r)) *
        (Real.exp (-(r*T)) * Real.exp (-((d2f sigma T r)^2/2))) ≤ 17/10 * 1 :=
      mul_le_mul hP1 hEE (by positivity) (by norm_num)
    nlinarith [hkey, Real.exp_pos (-((d2f sigma T r)^2/2))]

/-- Witness for C5 (amended) at `σ = 1`, `T = 1`, `r = 0`. -/
theorem c5_fairValue_range_witness :
    0 ≤ fairValue 1 1 0 ∧ fairValue 1 1 0 ≤ 100 :=
  c5_fairValue_range 1 1 0 (by norm_num) (by norm_num)

/-- Counterexample to C5 as stated: at `σ = 1`, `T = 1` the fair value
strictly decreases from `r = 5` to `r = 6`, so it is not monotonically
non-decreasing in `r`. -/
theorem c5_not_monotone_counterexample : fairValue 1 1 6 < fairValue 1 1 5 := by
  have h45 : d2f 1 1 5 = 4.5 := by
    rw [d2f, Real.sqrt_one]
    norm_num
  have h55 : d2f 1 1 6 = 5.5 := by
    rw [d2f, Real.sqrt_one]
    norm_num
  have he2 : (2:ℝ) ≤ Real.exp 1 := by
    have := Real.add_one_le_exp 1
    linarith
  have hE10 : Real.exp (-(10:ℝ)) ≤ 1/1024 := by
    have hpow : (1024:ℝ) ≤ Real.exp 10 := by
      have h1 : ((2:ℝ))^(10:ℕ) ≤ (Real.exp 1)^(10:ℕ) :=
        pow_le_pow_left₀ (by norm_num) he2 10
      have h2 : (Real.exp 1)^(10:ℕ) = Real.exp (10:ℕ) := Real.exp_one_pow 10
      rw [h2] at h1
      norm_num at h1 ⊢
      exact_mod_cast h1
    rw [Real.exp_neg]
    rw [inv_le_iff_one_le_mul₀ (Real.exp_pos 10)]
    nlinarith [Real.exp_pos (10:ℝ)]
  -- lower bound on N(4.5)
  have hN45 : 1 - (17/20) * Real.exp (-(10:ℝ)) ≤ normalCDF 4.5 := by
    rw [normalCDF_eq_nonneg 4.5 (by norm_num)]
    obtain ⟨ht0, ht1⟩ := tA_mem (4.5:ℝ)
    obtain ⟨hP0, hP1⟩ := asPoly_bounds ht0.le ht1
    have hEmono : Real.exp (-((4.5:ℝ)^2/2)) ≤ Real.exp (-(10:ℝ)) := by
      apply Real.exp_le_exp.mpr
      norm_num
    have hE0 : 0 < Real.exp (-((4.5:ℝ)^2/2)) := Real.exp_pos _
    nlinarith [Real.exp_pos (-(10:ℝ))]
  have hN55 : normalCDF 5.5 ≤ 1 := (normalCDF_bounds 5.5).2
  have hN55' : 0 ≤ normalCDF 5.5 := (normalCDF_bounds 5.5).1
  have hsplit : Real.exp (-(5:ℝ)) = Real.exp 1 * Real.exp (-(6:ℝ)) := by
    rw [← Real.exp_add]
    norm_num
  have hE6 : 0 < Real.exp (-(6:ℝ)) := Real.exp_pos _
  have hE10pos : 0 < Real.exp (-(10:ℝ)) := Real.exp_pos _
  rw [fairValue, fairValue, h45, h55]
  norm_num
  rw [hsplit]
  nlinarith [mul_le_mul he2 hN45 (by nlinarith) (by linarith), hE6, hN55, hN55',
    hE10, hE10pos]

/-! ### C7 — the DomainError guard -/

/-- C7 (amended): the engine's pricing constants are fixed and strictly
positive (`σ = 0.50 > 0`, `T = 0.0000095 > 0`), so non-positive pricing
inputs cannot occur at any call site; and the pricing block itself has
no guard and no failure branch — it succeeds on every input, including
non-positive `σ` or `T`. -/
theorem c7_no_domain_guard :
    (0:ℝ) < SIGMA ∧ (0:ℝ) < T_EXP ∧
      ∀ (sigma T r : ℝ), (priceBinaryE sigma T r).isOk = true := by
  refine ⟨by norm_num [SIGMA], by norm_num [T_EXP], fun sigma T r => rfl⟩

/-- Counterexample to C7 as stated: at `σ = 0 ≤ 0` (with the engine's
own `T` and `r`) the pricing computation does not fail with a
DomainError — it returns a value. -/
theorem c7_counterexample :
    ((0:ℝ) ≤ 0) ∧ (priceBinaryE 0 T_EXP R_FREE).isOk = true :=
  ⟨le_refl 0, rfl⟩

/-! ### C9 — quote validity -/

/-- The logistic map lands strictly inside `(0, 1)`. -/
lemma logistic_mem (v : ℝ) : 0 < logistic v ∧ logistic v < 1 := by
  have he : 0 < Real.exp (-v) := Real.exp_pos _
  constructor
  · exact div_pos one_pos (by linarith)
  · rw [logistic, div_lt_one (by linarith)]
    linarith

/-- The logistic map is strictly monotone. -/
lemma logistic_strictMono {a b : ℝ} (h : a < b) : logistic a < logistic b := by
  have he : Real.exp (-b) < Real.exp (-a) := Real.exp_lt_exp.mpr (by linarith)
  have hb : 0 < 1 + Real.exp (-b) := by positivity
  rw [logistic, logistic]
  apply one_div_lt_one_div_of_lt hb
  linarith

/-- The logistic map inverts the logit on `(0, 1)`. -/
lemma logistic_logitOf {p : ℝ} (hp0 : 0 < p) (hp1 : p < 1) :
    logistic (logitOf p) = p := by
  have hq : 0 < p / (1 - p) := div_pos hp0 (by linarith)
  rw [logistic, logitOf, ← Real.log_inv, Real.exp_log (by positivity)]
  rw [inv_div]
  field_simp

/-- C9: for every fair-value probability strictly inside `(0, 1)` and
every `γ > 0`, `k > 0`, `σ_b ≥ 0`, `T ≥ 0`, the half-spread is strictly
positive and the logit-shifted quotes satisfy
`0 < p_bid < p < p_ask < 1`. -/
theorem c9_quotes_valid (p gamma sigma_b T k : ℝ) (hp0 : 0 < p) (hp1 : p < 1)
    (hg : 0 < gamma) (hk : 0 < k) (hsb : 0 ≤ sigma_b) (hT : 0 ≤ T) :
    0 < delta_x gamma sigma_b T k ∧
    0 < p_bid p gamma sigma_b T k ∧
    p_bid p gamma sigma_b T k < p ∧
    p < p_ask p gamma sigma_b T k ∧
    p_ask p gamma sigma_b T k < 1 := by
  have hδ : 0 < delta_x gamma sigma_b T k := by
    have h1 : 0 ≤ gamma * sigma_b * sigma_b * T / 2 := by positivity
    have h2 : 0 < (1 / gamma) * Real.log (1 + gamma / k) := by
      have hlog : 0 < Real.log (1 + gamma / k) := by
        apply Real.log_pos
        have : 0 < gamma / k := div_pos hg hk
        linarith
      positivity
    rw [delta_x]
    linarith
  refine ⟨hδ, (logistic_mem _).1, ?_, ?_, (logistic_mem _).2⟩
  · have := logistic_strictMono
      (show logitOf p - delta_x gamma sigma_b T k < logitOf p by linarith)
    rw [logistic_logitOf hp0 hp1] at this
    exact this
  · have := logistic_strictMono
      (show logitOf p < logitOf p + delta_x gamma sigma_b T k by linarith)
    rw [logistic_logitOf hp0 hp1] at this
    exact this

/-- Witness for C9 at `p = 1/2`, the engine's base constants
`γ = 0.10`, `σ_b = 0.328`, `T = 0.0000095`, `k = 1.50`. -/
theorem c9_quotes_valid_witness :
    0 < delta_x GAMMA SIGMA_B T_EXP K_DECAY ∧
    0 < p_bid (1/2) GAMMA SIGMA_B T_EXP K_DECAY ∧
    p_bid (1/2) GAMMA SIGMA_B T_EXP K_DECAY < 1/2 ∧
    (1/2 : ℝ) < p_ask (1/2) GAMMA SIGMA_B T_EXP K_DECAY ∧
    p_ask (1/2) GAMMA SIGMA_B T_EXP K_DECAY < 1 :=
  c9_quotes_valid (1/2) GAMMA SIGMA_B T_EXP K_DECAY (by norm_num)
    (by norm_num) (by norm_num [GAMMA]) (by norm_num [K_DECAY])
    (by norm_num [SIGMA_B]) (by norm_num [T_EXP])
